import Mathlib

/-!
Verification of the `brain-react` client-side identity cache
(`src/src/index.ts`, richer two-level variant, lines 544-1233).

The module is shallowly embedded: JavaScript objects with string keys are
modelled as association lists (`List (String × _)`) preserving insertion
order, callbacks are modelled by their identity (`Nat`), and every
stateful operation is a pure function from the module state to the new
state together with the list of synchronous notifications it fires
(callback identity paired with the value passed to it).  Promise-based
operations additionally take the result of the external collaborator call
(`Except`) as an argument and return the settlement of the returned
promise (`outcome`: resolved, rejected, or never settling).
-/

namespace BrainReact

/-- The four capability names, in the order of `Object.keys(_types)`. -/
inductive rightOption where
  | create
  | read
  | update
  | delete
deriving DecidableEq, Repr

/-- `_types`: the fixed bit assigned to each capability
(create=0x01, read=0x02, update=0x04, delete=0x08). -/
def _types : rightOption → Nat
  | .create => 0x01
  | .read   => 0x02
  | .update => 0x04
  | .delete => 0x08

/-- One decoded capability set (the anonymous
`{create?: true, read?: true, update?: true, delete?: true}` record):
each key is either absent (`none`) or present with a boolean value.
The decoder only ever writes `some true`. -/
structure capSet where
  create : Option Bool := none
  read   : Option Bool := none
  update : Option Bool := none
  delete : Option Bool := none
deriving DecidableEq, Repr

/-- Field access on a `capSet` by capability name. -/
def capGet (c : capSet) : rightOption → Option Bool
  | .create => c.create
  | .read   => c.read
  | .update => c.update
  | .delete => c.delete

/-- `rightsStruct` of the richer variant: entity-id → capability set. -/
def rightsStruct := List (String × capSet)
deriving instance DecidableEq, Repr for rightsStruct

/-- The decoded two-level permission map: name → entity-id → capability set. -/
def permissionsMap := List (String × rightsStruct)
deriving instance DecidableEq, Repr for permissionsMap

/-- Raw wire data for one permission name: entity-id → integer bit flags. -/
def rawRights := List (String × Nat)
deriving instance DecidableEq, Repr for rawRights

/-- Raw wire permission data: name → entity-id → integer bit flags. -/
def rawPerms := List (String × rawRights)
deriving instance DecidableEq, Repr for rawPerms

/-- JavaScript `v & m` on a non-negative integer `v` and a small mask `m`:
`v` is converted with ToInt32 (reduction mod 2^32; the sign of the result
is irrelevant for masks below 2^31) before the bitwise and. -/
def jsAnd32 (v m : Nat) : Nat := (v % 4294967296) &&& m

/-- The inner decoding loop of `permissionsSet`: for each capability `s`,
the key is written (as `true`) exactly when `list[name][id] & _types[s]`
is truthy. -/
def decodeRights (v : Nat) : capSet :=
  { create := if jsAnd32 v (_types .create) != 0 then some true else none
    read   := if jsAnd32 v (_types .read)   != 0 then some true else none
    update := if jsAnd32 v (_types .update) != 0 then some true else none
    delete := if jsAnd32 v (_types .delete) != 0 then some true else none }

/-- The full decoding pass of `permissionsSet`: a fresh two-level map is
built from the raw data, every raw integer decoded with `decodeRights`. -/
def decodeMap (list : rawPerms) : permissionsMap :=
  list.map (fun p => (p.1, p.2.map (fun q => (q.1, decodeRights q.2))))

/-- The bit index of each capability (`_types s = 2 ^ rightBitIndex s`). -/
def rightBitIndex : rightOption → Nat
  | .create => 0
  | .read   => 1
  | .update => 2
  | .delete => 3

/-- `RIGHTS_ALL_ID`.  Modelled from the spec: the reserved all-entities
sentinel entity id is imported from the external `@ouroboros/brain`
package, whose source is not part of this repository; it is a fixed
opaque id string (with no `:` in it), modelled here by its published
constant value. -/
def RIGHTS_ALL_ID : String := "012345678901234567890123"

/-- The user record (`userType`): an id plus the raw wire-format
permission data; additional consumer-defined fields are passed through
unmodified and are irrelevant to every claim, so they are not modelled. -/
structure jsUser where
  _id : String
  permissions : rawPerms
deriving DecidableEq, Repr

/-- The whole mutable module state.  `session` models the token held by
the external `brain.session` holder (claims only need whether and with
what it was last set); `user = none` models the JavaScript value
`false`; the remaining fields are the module-level lists/maps. -/
structure MyselfState where
  session : Option String
  user : Option jsUser
  userSubscriptions : List Nat
  permissions : permissionsMap
  permissionsSubscriptions : List Nat
  rightsSubscriptions : List (String × List Nat)
  rightsAllSubscriptions : List (String × List Nat)
  noSession : Option Nat
deriving DecidableEq, Repr

/-- The state at module load. -/
def initialState : MyselfState :=
  { session := none
    user := none
    userSubscriptions := []
    permissions := []
    permissionsSubscriptions := []
    rightsSubscriptions := []
    rightsAllSubscriptions := []
    noSession := none }

/-- A value passed to an observer callback: the full permission map, an
entity-rights map (name scope), one capability set (name+id scope), or
the user value. -/
inductive notifyValue where
  | perms (m : permissionsMap)
  | entityRights (m : rightsStruct)
  | rights (r : capSet)
  | user (u : Option jsUser)
deriving DecidableEq, Repr

/-- One synchronous callback invocation: callback identity and argument. -/
def notif := Nat × notifyValue
deriving instance DecidableEq, Repr for notif

/-- `indexOf` + `splice(i, 1)`: remove the first occurrence (by identity)
of `c` in `l`; the boolean reports whether one was found. -/
def removeFirstOcc (l : List Nat) (c : Nat) : List Nat × Bool :=
  match l with
  | [] => ([], false)
  | x :: t =>
    if x = c then (t, true)
    else
      let r := removeFirstOcc t c
      (x :: r.1, r.2)

/-- In-place update of the first entry with key `k` of a JavaScript
object modelled as an association list. -/
def objModify {α : Type} (l : List (String × α)) (k : String) (f : α → α) :
    List (String × α) :=
  match l with
  | [] => []
  | (k2, v) :: t => if k2 = k then (k2, f v) :: t else (k2, v) :: objModify t k f

/-- `delete obj[k]`: remove the first entry with key `k`. -/
def objDelete {α : Type} (l : List (String × α)) (k : String) :
    List (String × α) :=
  match l with
  | [] => []
  | (k2, v) :: t => if k2 = k then t else (k2, v) :: objDelete t k

/-- `set`: store the new user value and notify every user observer with
a copy of it. -/
def set (st : MyselfState) (u : Option jsUser) : MyselfState × List notif :=
  let st2 := { st with user := u }
  (st2, st2.userSubscriptions.map (fun f => (f, notifyValue.user u)))

/-- JavaScript `String.prototype.split(':')` on the character list:
splitting `[]` gives one empty segment, exactly as `"".split(':')` gives
`[""]`. -/
def splitChars : List Char → List (List Char)
  | [] => [[]]
  | c :: t =>
    if c = ':' then [] :: splitChars t
    else
      match splitChars t with
      | [] => [[c]]
      | h :: r => (c :: h) :: r

/-- JavaScript `k.split(':')`. -/
def splitOnColon (k : String) : List String :=
  (splitChars k.toList).map (fun cs => { data := cs })

/-- `const [name, id] = k.split(':')`: the first `:`-separated segment
and the second one; a missing second segment is JavaScript `undefined`,
which the subsequent `id in _permissions[name]` lookup coerces to the
property name `"undefined"`. -/
def splitKey (k : String) : String × String :=
  let parts := splitOnColon k
  (parts.headD "", (parts.drop 1).headD "undefined")

/-- The value `permissionsSet` fans out for registered scope key `k`
against permission map `m`:(name in m && id in m[name]) ? m[name][id] : {}. -/
def scopedLookup (m : permissionsMap) (k : String) : capSet :=
  match m.lookup (splitKey k).1 with
  | none => {}
  | some er => ((er.lookup (splitKey k).2).getD {})

/-- `permissionsSet`: decode the raw data into a fresh map (the previous
map is discarded wholesale), then notify every all-permissions observer
with the full new map, then every observer of every registered scope key
with that key's value under the new map. -/
def permissionsSet (st : MyselfState) (list : rawPerms) :
    MyselfState × List notif :=
  let newPerms := decodeMap list
  let st2 := { st with permissions := newPerms }
  let allN : List notif :=
    st2.permissionsSubscriptions.map (fun f => (f, notifyValue.perms newPerms))
  let scopedN : List notif :=
    st2.rightsSubscriptions.flatMap
      (fun kv => kv.2.map (fun f => (f, notifyValue.rights (scopedLookup newPerms kv.1))))
  (st2, allN ++ scopedN)

/-- `permissionsSubscribe`.  The result is the state after the call's
side effects together with either (on normal return) the synchronous
notifications fired and the `data` field of the returned handle, or
`Except.error ()` when the call throws a `TypeError` (pushing onto a
list that was never created).  The handle's `unsubscribe` closure simply
calls `permissionsUnsubscribe` with the same callback/name/id. -/
def permissionsSubscribe (st : MyselfState) (cb : Nat)
    (name : Option String) (id : Option String) :
    MyselfState × Except Unit (List notif × notifyValue) :=
  match name with
  | none =>
    let st2 := { st with
      permissionsSubscriptions := st.permissionsSubscriptions ++ [cb] }
    (st2, Except.ok ([(cb, notifyValue.perms st.permissions)],
                     notifyValue.perms st.permissions))
  | some n =>
    match id with
    | none =>
      let st2 :=
        if (st.rightsAllSubscriptions.lookup n).isSome then st
        else { st with
          rightsAllSubscriptions := st.rightsAllSubscriptions ++ [(n, [])] }
      match st2.rightsSubscriptions.lookup n with
      | none => (st2, Except.error ())
      | some _ =>
        let st3 := { st2 with
          rightsSubscriptions := objModify st2.rightsSubscriptions n (· ++ [cb]) }
        let oRights : rightsStruct := (st3.permissions.lookup n).getD []
        (st3, Except.ok ([(cb, notifyValue.entityRights oRights)],
                         notifyValue.entityRights oRights))
    | some i =>
      let sKey := n ++ ":" ++ i
      let st2 :=
        if (st.rightsSubscriptions.lookup sKey).isSome then st
        else { st with
          rightsSubscriptions := st.rightsSubscriptions ++ [(sKey, [])] }
      let st3 := { st2 with
        rightsSubscriptions := objModify st2.rightsSubscriptions sKey (· ++ [cb]) }
      let oRights : capSet :=
        match st3.permissions.lookup n with
        | none => {}
        | some er => (er.lookup i).getD {}
      (st3, Except.ok ([(cb, notifyValue.rights oRights)],
                       notifyValue.rights oRights))

/-- `permissionsUnsubscribe`: remove the callback from the
all-permissions list, or from the list of the key `name:id` (the id
defaulting to `RIGHTS_ALL_ID`), deleting the key when its list becomes
empty; returns whether a callback was found and removed. -/
def permissionsUnsubscribe (st : MyselfState) (cb : Nat)
    (name : Option String) (id : Option String) : MyselfState × Bool :=
  match name with
  | none =>
    let r := removeFirstOcc st.permissionsSubscriptions cb
    ({ st with permissionsSubscriptions := r.1 }, r.2)
  | some n =>
    let sID := id.getD RIGHTS_ALL_ID
    let sKey := n ++ ":" ++ sID
    match st.rightsSubscriptions.lookup sKey with
    | none => (st, false)
    | some lst =>
      let r := removeFirstOcc lst cb
      if r.2 then
        if r.1.isEmpty then
          ({ st with rightsSubscriptions := objDelete st.rightsSubscriptions sKey },
           true)
        else
          ({ st with rightsSubscriptions := objModify st.rightsSubscriptions sKey (fun _ => r.1) },
           true)
      else (st, false)

/-- `subscribe` (user store): append the callback, invoke it once with a
copy of the current user value, and return that value (the handle's
`unsubscribe` closure calls `unsubscribe` on the same callback). -/
def subscribe (st : MyselfState) (cb : Nat) :
    MyselfState × List notif × notifyValue :=
  let st2 := { st with userSubscriptions := st.userSubscriptions ++ [cb] }
  (st2, [(cb, notifyValue.user st.user)], notifyValue.user st.user)

/-- `unsubscribe` (user store): remove the first occurrence by identity. -/
def unsubscribe (st : MyselfState) (cb : Nat) : MyselfState × Bool :=
  let r := removeFirstOcc st.userSubscriptions cb
  ({ st with userSubscriptions := r.1 }, r.2)

/-- Settlement of a returned promise: resolved with a value, rejected
with an error, or never settling at all (no `resolve`/`reject` call on
any path). -/
inductive outcome (ε α : Type) where
  | resolved (a : α)
  | rejected (e : ε)
  | pending
deriving DecidableEq, Repr

/-- `responseErrorStruct` (the rejection value delivered by the external
transport): an error code, a message and an optional `handle` function
(modelled by its identity) whose presence marks the rejection as an
already-handled session signal. -/
structure responseErrorStruct where
  code : Nat
  msg : String
  handle : Option Nat
deriving DecidableEq, Repr

/-- `update`: given the settlement of the external `brain.read('user')`
call (`Except.ok none` models a resolution with a falsy value), produce
the new state, the notifications fired, the settlement of the returned
promise, and the invoked `error.handle` call, if any, as
(handle identity, error code, error message). -/
def update (st : MyselfState)
    (res : Except responseErrorStruct (Option jsUser)) :
    MyselfState × List notif × outcome responseErrorStruct jsUser ×
      Option (Nat × Nat × String) :=
  match res with
  | Except.ok (some data) =>
    let r1 := set st (some data)
    let r2 := permissionsSet r1.1 data.permissions
    (r2.1, r1.2 ++ r2.2, outcome.resolved data, none)
  | Except.ok none => (st, [], outcome.pending, none)
  | Except.error e =>
    match e.handle with
    | some h => (st, [], outcome.pending, some (h, e.code, e.msg))
    | none => (st, [], outcome.rejected e, none)

/-- The credentials form of `signinStruct`. -/
structure signinCreds where
  email : String
  passwd : String
  portal : Option String
deriving DecidableEq, Repr

/-- The resolution value of the external `brain.create('signin')` call
(only the session token matters to the module). -/
structure signinData where
  session : String
deriving DecidableEq, Repr

/-- `signin`: with a token, set the session and refresh; with
credentials, run the external signin call (its settlement is
`signinRes`; `Except.ok none` models a falsy resolution), then set the
session from the response and refresh.  `fetchRes` is the settlement of
the inner `update()` fetch.  An inner rejection or falsy value leaves
the outer promise pending (no rejection handler is attached to the
inner `update()`). -/
def signin (st : MyselfState) (usingArg : Sum String signinCreds)
    (signinRes : Except responseErrorStruct (Option signinData))
    (fetchRes : Except responseErrorStruct (Option jsUser)) :
    MyselfState × List notif × outcome responseErrorStruct (String × jsUser) :=
  match usingArg with
  | Sum.inl token =>
    let st1 := { st with session := some token }
    let r := update st1 fetchRes
    match r.2.2.1 with
    | outcome.resolved u => (r.1, r.2.1, outcome.resolved (token, u))
    | _ => (r.1, r.2.1, outcome.pending)
  | Sum.inr _ =>
    match signinRes with
    | Except.error e => (st, [], outcome.rejected e)
    | Except.ok none => (st, [], outcome.pending)
    | Except.ok (some d) =>
      let st1 := { st with session := some d.session }
      let r := update st1 fetchRes
      match r.2.2.1 with
      | outcome.resolved u => (r.1, r.2.1, outcome.resolved (d.session, u))
      | _ => (r.1, r.2.1, outcome.pending)

/-- `signout`: given the settlement of the external
`brain.create('signout')` call, clear the session, replace the user with
absent and the permission map with the empty map when the call resolved
truthy, and resolve with the raw boolean; a rejection propagates
untouched with no state change. -/
def signout (st : MyselfState) (res : Except responseErrorStruct Bool) :
    MyselfState × List notif × outcome responseErrorStruct Bool :=
  match res with
  | Except.error e => (st, [], outcome.rejected e)
  | Except.ok data =>
    if data then
      let st1 := { st with session := none }
      let r1 := set st1 none
      let r2 := permissionsSet r1.1 []
      (r2.1, r1.2 ++ r2.2, outcome.resolved data)
    else (st, [], outcome.resolved data)

/-- A JavaScript argument as seen by the `typeof` check: a function
(modelled by its identity) or any non-function value (tagged). -/
inductive jsArg where
  | func (f : Nat)
  | nonFunc (tag : String)
deriving DecidableEq, Repr

/-- `onNoSession`: a non-function argument throws synchronously before
anything is mutated (the boolean reports the throw); a function argument
replaces the registered no-session callback. -/
def onNoSession (st : MyselfState) (callback : jsArg) : MyselfState × Bool :=
  match callback with
  | jsArg.nonFunc _ => (st, true)
  | jsArg.func f => ({ st with noSession := some f }, false)

/-- The `body.onNoSession` handler installed at module load: clear the
session, replace the user with absent, replace the permission map with
the empty map, then invoke the registered no-session callback, if any
(returned as the third component). -/
def noSessionEvent (st : MyselfState) : MyselfState × List notif × Option Nat :=
  let st1 := { st with session := none }
  let r1 := set st1 none
  let r2 := permissionsSet r1.1 []
  (r2.1, r1.2 ++ r2.2, r2.1.noSession)

/-- One scoped-registry operation: a `permissionsSubscribe` or a
`permissionsUnsubscribe` call with any argument shape. -/
inductive regOp where
  | sub (cb : Nat) (name : Option String) (id : Option String)
  | unsub (cb : Nat) (name : Option String) (id : Option String)
deriving DecidableEq, Repr

/-- Apply one registry operation to the state (keeping the state even
when a subscribe call throws). -/
def applyRegOp (st : MyselfState) : regOp → MyselfState
  | regOp.sub cb n i => (permissionsSubscribe st cb n i).1
  | regOp.unsub cb n i => (permissionsUnsubscribe st cb n i).1

/-- Apply a sequence of registry operations, oldest first. -/
def applyRegOps (st : MyselfState) (ops : List regOp) : MyselfState :=
  ops.foldl applyRegOp st

/-- The registry-cleanup invariant: no key of `_rightsSubscriptions`
maps to an empty observer list. -/
def registryClean (st : MyselfState) : Prop :=
  ∀ kv ∈ st.rightsSubscriptions, kv.2 ≠ []

instance (st : MyselfState) : Decidable (registryClean st) := by
  unfold registryClean
  infer_instance

/-- A concrete state with one scoped observer (callback 9 under scope
`("docs", "e1")`) and the same callback subscribed once to the user
store; used to instantiate the universally quantified theorems. -/
def exSt : MyselfState :=
  { initialState with
    userSubscriptions := [9]
    rightsSubscriptions := [("docs:e1", [9])] }

/-- A concrete state with one callback subscribed twice to the user
store. -/
def exSt2 : MyselfState :=
  { initialState with userSubscriptions := [9, 9] }

/-- A concrete raw permission map granting create+read on
`docs`/`e1`. -/
def exRaw : rawPerms := [("docs", [("e1", 3)])]

/-- A concrete state with one callback registered twice under the same
scope key `("docs", "e1")`. -/
def exSt3 : MyselfState :=
  { initialState with rightsSubscriptions := [("docs:e1", [9, 9])] }

/-! ## Helper lemmas -/

theorem _types_eq_two_pow (s : rightOption) : _types s = 2 ^ rightBitIndex s := by
  cases s <;> rfl

theorem jsAnd32_two_pow (v k : Nat) (hk : k < 32) :
    (jsAnd32 v (2 ^ k) != 0) = v.testBit k := by
  have h32 : (4294967296 : Nat) = 2 ^ 32 := by norm_num
  rw [jsAnd32, h32, Nat.and_two_pow, Nat.testBit_mod_two_pow]
  simp only [hk, decide_True, Bool.true_and]
  cases h : v.testBit k
  · simp
  · simp [(pow_pos (by norm_num : (0:ℕ) < 2) k).ne']

theorem decodeRights_testBit (v : Nat) (s : rightOption) :
    capGet (decodeRights v) s =
      (if v.testBit (rightBitIndex s) then some true else none) := by
  cases s
  case create =>
    simp only [decodeRights, capGet, rightBitIndex]
    rw [show _types rightOption.create = 2 ^ 0 from rfl,
        jsAnd32_two_pow v 0 (by norm_num)]
  case read =>
    simp only [decodeRights, capGet, rightBitIndex]
    rw [show _types rightOption.read = 2 ^ 1 from rfl,
        jsAnd32_two_pow v 1 (by norm_num)]
  case update =>
    simp only [decodeRights, capGet, rightBitIndex]
    rw [show _types rightOption.update = 2 ^ 2 from rfl,
        jsAnd32_two_pow v 2 (by norm_num)]
  case delete =>
    simp only [decodeRights, capGet, rightBitIndex]
    rw [show _types rightOption.delete = 2 ^ 3 from rfl,
        jsAnd32_two_pow v 3 (by norm_num)]

theorem removeFirstOcc_of_not_mem (l : List Nat) (c : Nat) (h : c ∉ l) :
    removeFirstOcc l c = (l, false) := by
  induction l with
  | nil => rfl
  | cons x t ih =>
    simp only [List.mem_cons, not_or] at h
    simp only [removeFirstOcc, if_neg (Ne.symm h.1), ih h.2]

theorem removeFirstOcc_append_cons (l1 l2 : List Nat) (c : Nat) (h : c ∉ l1) :
    removeFirstOcc (l1 ++ c :: l2) c = (l1 ++ l2, true) := by
  induction l1 with
  | nil => simp [removeFirstOcc]
  | cons x t ih =>
    simp only [List.mem_cons, not_or] at h
    rw [List.cons_append]
    simp only [removeFirstOcc]
    rw [if_neg (Ne.symm h.1), ih h.2]
    simp

theorem lookup_cons_key_self {α : Type} (k : String) (v : α) (t : List (String × α)) :
    ((k, v) :: t).lookup k = some v := by
  simp [List.lookup_cons]

theorem lookup_cons_key_ne {α : Type} (k k2 : String) (v : α) (t : List (String × α))
    (h : k2 ≠ k) : ((k2, v) :: t).lookup k = t.lookup k := by
  simp [List.lookup_cons, beq_false_of_ne (Ne.symm h)]

theorem removeFirstOcc_mem_spec (l : List Nat) (c : Nat) (h : c ∈ l) :
    (removeFirstOcc l c).2 = true
    ∧ (removeFirstOcc l c).1.count c = l.count c - 1 := by
  induction l with
  | nil => cases h
  | cons x t ih =>
    by_cases hx : x = c
    · subst hx
      simp [removeFirstOcc, List.count_cons_self]
    · have hct : c ∈ t := by
        rcases List.mem_cons.mp h with h1 | h1
        · exact absurd h1.symm hx
        · exact h1
      have := ih hct
      simp only [removeFirstOcc, if_neg hx]
      refine ⟨this.1, ?_⟩
      have hcnt : (x :: (removeFirstOcc t c).1).count c = (removeFirstOcc t c).1.count c := by
        rw [List.count_cons_of_ne (fun hcx => hx hcx.symm)]
      rw [hcnt, this.2, List.count_cons_of_ne (fun hcx => hx hcx.symm)]

theorem countP_fst_map (l : List Nat) (cb : Nat) (g : Nat → notifyValue) :
    List.countP (fun p => p.1 == cb) (l.map (fun f => (f, g f))) = l.count cb := by
  induction l with
  | nil => rfl
  | cons x t ih =>
    simp only [List.map_cons, List.countP_cons, List.count_cons, ih]

theorem countP_flatMap_zero (rs : List (String × List Nat)) (cb : Nat)
    (g : String × List Nat → Nat → notifyValue)
    (h : ∀ kv ∈ rs, cb ∉ kv.2) :
    List.countP (fun p => p.1 == cb)
      (rs.flatMap (fun kv => kv.2.map (fun f => (f, g kv f)))) = 0 := by
  induction rs with
  | nil => rfl
  | cons kv t ih =>
    simp only [List.flatMap_cons, List.countP_append]
    rw [countP_fst_map, ih (fun x hx => h x (List.mem_cons_of_mem kv hx)),
      List.count_eq_zero.mpr (h kv (List.mem_cons_self kv t))]

theorem countP_flatMap_count (rs : List (String × List Nat)) (cb : Nat)
    (K : String) (g : String × List Nat → Nat → notifyValue) (l2 : List Nat)
    (hlook : rs.lookup K = some l2)
    (hnd : (rs.map Prod.fst).Nodup)
    (hothers : ∀ kv ∈ rs, kv.1 ≠ K → cb ∉ kv.2) :
    List.countP (fun p => p.1 == cb)
      (rs.flatMap (fun kv => kv.2.map (fun f => (f, g kv f)))) = l2.count cb := by
  induction rs with
  | nil => cases hlook
  | cons x t ih =>
    obtain ⟨k2, v2⟩ := x
    simp only [List.map_cons, List.nodup_cons] at hnd
    simp only [List.flatMap_cons, List.countP_append]
    by_cases hx : k2 = K
    · subst hx
      rw [lookup_cons_key_self] at hlook
      have hv2 : v2 = l2 := Option.some_inj.mp hlook
      subst hv2
      have hrest : List.countP (fun p => p.1 == cb)
          (t.flatMap (fun kv => kv.2.map (fun f => (f, g kv f)))) = 0 := by
        apply countP_flatMap_zero
        intro kv hkv
        by_cases hk : kv.1 = k2
        · exfalso
          have hmk : kv.1 ∈ t.map Prod.fst := List.mem_map_of_mem Prod.fst hkv
          rw [hk] at hmk
          exact hnd.1 hmk
        · exact hothers kv (List.mem_cons_of_mem _ hkv) hk
      rw [countP_fst_map, hrest]
      omega
    · rw [lookup_cons_key_ne K k2 v2 t hx] at hlook
      have hv20 : v2.count cb = 0 :=
        List.count_eq_zero.mpr (hothers (k2, v2) (List.mem_cons_self _ t) hx)
      rw [countP_fst_map, hv20,
        ih hlook hnd.2 (fun kv hkv => hothers kv (List.mem_cons_of_mem _ hkv))]
      omega

theorem objModify_map_fst {α : Type} (l : List (String × α)) (k : String)
    (f : α → α) : (objModify l k f).map Prod.fst = l.map Prod.fst := by
  induction l with
  | nil => rfl
  | cons x t ih =>
    obtain ⟨k2, v2⟩ := x
    simp only [objModify]
    by_cases hx : k2 = k
    · rw [if_pos hx]
      rfl
    · rw [if_neg hx]
      simp only [List.map_cons, ih]

theorem objDelete_subset {α : Type} (l : List (String × α)) (k : String) :
    ∀ kv ∈ objDelete l k, kv ∈ l := by
  induction l with
  | nil => intro kv h; cases h
  | cons x t ih =>
    obtain ⟨k2, v2⟩ := x
    intro kv h
    simp only [objDelete] at h
    by_cases hx : k2 = k
    · rw [if_pos hx] at h
      exact List.mem_cons_of_mem _ h
    · rw [if_neg hx] at h
      rcases List.mem_cons.mp h with h1 | h1
      · exact h1 ▸ List.mem_cons_self _ t
      · exact List.mem_cons_of_mem _ (ih kv h1)

theorem objDelete_no_key {α : Type} (l : List (String × α)) (k : String)
    (h : (l.map Prod.fst).Nodup) : ∀ v, (k, v) ∉ objDelete l k := by
  induction l with
  | nil => intro v hv; cases hv
  | cons x t ih =>
    obtain ⟨k2, v2⟩ := x
    simp only [List.map_cons, List.nodup_cons] at h
    intro v hv
    simp only [objDelete] at hv
    by_cases hx : k2 = k
    · rw [if_pos hx] at hv
      have : k ∈ t.map Prod.fst := List.mem_map_of_mem Prod.fst hv
      rw [← hx] at this
      exact h.1 this
    · rw [if_neg hx] at hv
      rcases List.mem_cons.mp hv with h1 | h1
      · exact hx (congrArg Prod.fst h1).symm
      · exact ih h.2 v h1

theorem objModify_mem {α : Type} (l : List (String × α)) (k : String) (f : α → α) :
    ∀ kv ∈ objModify l k f, kv ∈ l ∨ ∃ v, (k, v) ∈ l ∧ kv = (k, f v) := by
  induction l with
  | nil => intro kv h; cases h
  | cons x t ih =>
    obtain ⟨k2, v2⟩ := x
    intro kv h
    simp only [objModify] at h
    by_cases hx : k2 = k
    · rw [if_pos hx] at h
      rcases List.mem_cons.mp h with h1 | h1
      · subst hx
        exact Or.inr ⟨v2, List.mem_cons_self _ t, h1⟩
      · exact Or.inl (List.mem_cons_of_mem _ h1)
    · rw [if_neg hx] at h
      rcases List.mem_cons.mp h with h1 | h1
      · exact Or.inl (h1 ▸ List.mem_cons_self _ t)
      · rcases ih kv h1 with h2 | ⟨v, hv1, hv2⟩
        · exact Or.inl (List.mem_cons_of_mem _ h2)
        · exact Or.inr ⟨v, List.mem_cons_of_mem _ hv1, hv2⟩

theorem objModify_mem_nodup {α : Type} (l : List (String × α)) (k : String)
    (f : α → α) (h : (l.map Prod.fst).Nodup) :
    ∀ kv ∈ objModify l k f,
      (kv ∈ l ∧ kv.1 ≠ k) ∨ (∃ v, l.lookup k = some v ∧ kv = (k, f v)) := by
  induction l with
  | nil => intro kv hv; cases hv
  | cons x t ih =>
    obtain ⟨k2, v2⟩ := x
    simp only [List.map_cons, List.nodup_cons] at h
    intro kv hv
    simp only [objModify] at hv
    by_cases hx : k2 = k
    · rw [if_pos hx] at hv
      rcases List.mem_cons.mp hv with h1 | h1
      · subst hx
        exact Or.inr ⟨v2, by simp [List.lookup_cons], h1⟩
      · refine Or.inl ⟨List.mem_cons_of_mem _ h1, ?_⟩
        intro hk
        have : kv.1 ∈ t.map Prod.fst := List.mem_map_of_mem Prod.fst h1
        rw [hk, ← hx] at this
        exact h.1 this
    · rw [if_neg hx] at hv
      rcases List.mem_cons.mp hv with h1 | h1
      · refine Or.inl ⟨h1 ▸ List.mem_cons_self _ t, ?_⟩
        rw [h1]
        exact hx
      · rcases ih h.2 kv h1 with ⟨h2, h3⟩ | ⟨v, hv1, hv2⟩
        · exact Or.inl ⟨List.mem_cons_of_mem _ h2, h3⟩
        · refine Or.inr ⟨v, ?_, hv2⟩
          rw [lookup_cons_key_ne k k2 v2 t hx]
          exact hv1

theorem lookup_of_not_mem_keys {α : Type} (l : List (String × α)) (k : String)
    (h : k ∉ l.map Prod.fst) : l.lookup k = none := by
  induction l with
  | nil => rfl
  | cons x t ih =>
    obtain ⟨k2, v2⟩ := x
    simp only [List.map_cons, List.mem_cons, not_or] at h
    rw [lookup_cons_key_ne k k2 v2 t (Ne.symm h.1)]
    exact ih h.2

theorem lookup_objDelete_self {α : Type} (l : List (String × α)) (k : String)
    (h : (l.map Prod.fst).Nodup) : (objDelete l k).lookup k = none := by
  induction l with
  | nil => rfl
  | cons x t ih =>
    obtain ⟨k2, v2⟩ := x
    simp only [List.map_cons, List.nodup_cons] at h
    simp only [objDelete]
    by_cases hx : k2 = k
    · rw [if_pos hx]
      exact lookup_of_not_mem_keys t k (hx ▸ h.1)
    · rw [if_neg hx, lookup_cons_key_ne k k2 v2 _ hx]
      exact ih h.2

theorem lookup_objModify_self {α : Type} (l : List (String × α)) (k : String)
    (f : α → α) (v : α) (h : l.lookup k = some v) :
    (objModify l k f).lookup k = some (f v) := by
  induction l with
  | nil => cases h
  | cons x t ih =>
    obtain ⟨k2, v2⟩ := x
    simp only [objModify]
    by_cases hx : k2 = k
    · subst hx
      rw [lookup_cons_key_self] at h
      rw [if_pos rfl, lookup_cons_key_self, Option.some_inj.mp h]
    · rw [lookup_cons_key_ne k k2 v2 t hx] at h
      rw [if_neg hx, lookup_cons_key_ne k k2 v2 _ hx]
      exact ih h

theorem objModify_append_fresh {α : Type} (l : List (String × α)) (k : String)
    (v : α) (f : α → α) (h : l.lookup k = none) :
    objModify (l ++ [(k, v)]) k f = l ++ [(k, f v)] := by
  induction l with
  | nil => simp [objModify]
  | cons x t ih =>
    obtain ⟨k2, v2⟩ := x
    by_cases hx : k2 = k
    · subst hx
      rw [lookup_cons_key_self] at h
      cases h
    · rw [lookup_cons_key_ne k k2 v2 t hx] at h
      simp only [List.cons_append, objModify, if_neg hx]
      exact congrArg (List.cons (k2, v2)) (ih h)

theorem lookup_append_of_none {α : Type} (l1 l2 : List (String × α)) (k : String)
    (h : l1.lookup k = none) : (l1 ++ l2).lookup k = l2.lookup k := by
  induction l1 with
  | nil => rfl
  | cons x t ih =>
    obtain ⟨k2, v2⟩ := x
    by_cases hx : k2 = k
    · subst hx
      rw [lookup_cons_key_self] at h
      cases h
    · rw [lookup_cons_key_ne k k2 v2 t hx] at h
      rw [List.cons_append, lookup_cons_key_ne k k2 v2 _ hx]
      exact ih h

theorem splitChars_no_colon (l : List Char) (h : ':' ∉ l) : splitChars l = [l] := by
  induction l with
  | nil => rfl
  | cons c t ih =>
    simp only [List.mem_cons, not_or] at h
    simp only [splitChars, if_neg (Ne.symm h.1)]
    rw [ih h.2]

theorem splitChars_append (l1 l2 : List Char) (h : ':' ∉ l1) :
    splitChars (l1 ++ ':' :: l2) = l1 :: splitChars l2 := by
  induction l1 with
  | nil => simp [splitChars]
  | cons c t ih =>
    simp only [List.mem_cons, not_or] at h
    rw [List.cons_append]
    simp only [splitChars, if_neg (Ne.symm h.1)]
    rw [ih h.2]

theorem splitKey_concat (n i : String) (hn : ':' ∉ n.toList) (hi : ':' ∉ i.toList) :
    splitKey (n ++ ":" ++ i) = (n, i) := by
  have hdata : (n ++ ":" ++ i).toList = n.toList ++ ':' :: i.toList := by
    show (n ++ ":" ++ i).data = n.data ++ ':' :: i.data
    rw [String.data_append, String.data_append, List.append_assoc]
    rfl
  simp only [splitKey, splitOnColon, hdata,
    splitChars_append n.toList i.toList hn, splitChars_no_colon i.toList hi]
  rfl

theorem scopedLookup_concat (m : permissionsMap) (n i : String)
    (hn : ':' ∉ n.toList) (hi : ':' ∉ i.toList) :
    scopedLookup m (n ++ ":" ++ i)
      = ((m.lookup n).bind (fun er => er.lookup i)).getD {} := by
  simp only [scopedLookup, splitKey_concat n i hn hi]
  cases m.lookup n <;> rfl

theorem permissionsSubscribe_rS (s : MyselfState) (cb : Nat)
    (name id : Option String) :
    (permissionsSubscribe s cb name id).1.rightsSubscriptions = s.rightsSubscriptions
    ∨ (∃ k, (permissionsSubscribe s cb name id).1.rightsSubscriptions
          = objModify s.rightsSubscriptions k (· ++ [cb]))
    ∨ (∃ k, s.rightsSubscriptions.lookup k = none
          ∧ (permissionsSubscribe s cb name id).1.rightsSubscriptions
              = s.rightsSubscriptions ++ [(k, [cb])]) := by
  cases name with
  | none => exact Or.inl rfl
  | some nm =>
    cases id with
    | none =>
      simp only [permissionsSubscribe]
      by_cases hAll : (s.rightsAllSubscriptions.lookup nm).isSome
      · rw [if_pos hAll]
        cases hl : s.rightsSubscriptions.lookup nm with
        | none => exact Or.inl rfl
        | some lst => exact Or.inr (Or.inl ⟨nm, rfl⟩)
      · rw [if_neg hAll]
        cases hl : s.rightsSubscriptions.lookup nm with
        | none => exact Or.inl rfl
        | some lst => exact Or.inr (Or.inl ⟨nm, rfl⟩)
    | some idv =>
      simp only [permissionsSubscribe]
      by_cases hk : (s.rightsSubscriptions.lookup (nm ++ ":" ++ idv)).isSome
      · rw [if_pos hk]
        exact Or.inr (Or.inl ⟨nm ++ ":" ++ idv, rfl⟩)
      · rw [if_neg hk]
        have hnone : s.rightsSubscriptions.lookup (nm ++ ":" ++ idv) = none :=
          Option.not_isSome_iff_eq_none.mp hk
        refine Or.inr (Or.inr ⟨nm ++ ":" ++ idv, hnone, ?_⟩)
        show objModify (s.rightsSubscriptions ++ [(nm ++ ":" ++ idv, [])])
              (nm ++ ":" ++ idv) (· ++ [cb]) = _
        rw [objModify_append_fresh _ _ _ _ hnone]
        rfl

theorem permissionsUnsubscribe_rS (s : MyselfState) (cb : Nat)
    (name id : Option String) :
    (permissionsUnsubscribe s cb name id).1.rightsSubscriptions = s.rightsSubscriptions
    ∨ (∃ k, (permissionsUnsubscribe s cb name id).1.rightsSubscriptions
          = objDelete s.rightsSubscriptions k)
    ∨ (∃ k v, v ≠ []
          ∧ (permissionsUnsubscribe s cb name id).1.rightsSubscriptions
              = objModify s.rightsSubscriptions k (fun _ => v)) := by
  cases name with
  | none => exact Or.inl rfl
  | some nm =>
    simp only [permissionsUnsubscribe]
    cases hl : s.rightsSubscriptions.lookup (nm ++ ":" ++ (id.getD RIGHTS_ALL_ID)) with
    | none => exact Or.inl rfl
    | some lst =>
      dsimp only
      by_cases hr : (removeFirstOcc lst cb).2
      · rw [if_pos hr]
        by_cases he : (removeFirstOcc lst cb).1.isEmpty
        · rw [if_pos he]
          exact Or.inr (Or.inl ⟨_, rfl⟩)
        · rw [if_neg he]
          refine Or.inr (Or.inr ⟨_, (removeFirstOcc lst cb).1, ?_, rfl⟩)
          intro hnil
          rw [hnil] at he
          exact he rfl
      · rw [if_neg hr]
        exact Or.inl rfl

theorem registryClean_applyRegOp (s : MyselfState) (op : regOp)
    (hs : registryClean s) : registryClean (applyRegOp s op) := by
  cases op with
  | sub cb name id =>
    show registryClean (permissionsSubscribe s cb name id).1
    rcases permissionsSubscribe_rS s cb name id with h | ⟨k, h⟩ | ⟨k, hk, h⟩
    · intro kv hkv
      rw [h] at hkv
      exact hs kv hkv
    · intro kv hkv
      rw [h] at hkv
      rcases objModify_mem _ _ _ kv hkv with h1 | ⟨v, hv1, hv2⟩
      · exact hs kv h1
      · rw [hv2]
        simp
    · intro kv hkv
      rw [h] at hkv
      rcases List.mem_append.mp hkv with h1 | h1
      · exact hs kv h1
      · rcases List.mem_singleton.mp h1 with rfl
        simp
  | unsub cb name id =>
    show registryClean (permissionsUnsubscribe s cb name id).1
    rcases permissionsUnsubscribe_rS s cb name id with h | ⟨k, h⟩ | ⟨k, v, hv, h⟩
    · intro kv hkv
      rw [h] at hkv
      exact hs kv hkv
    · intro kv hkv
      rw [h] at hkv
      exact hs kv (objDelete_subset _ _ kv hkv)
    · intro kv hkv
      rw [h] at hkv
      rcases objModify_mem _ _ _ kv hkv with h1 | ⟨w, hw1, hw2⟩
      · exact hs kv h1
      · rw [hw2]
        exact hv

theorem registryClean_applyRegOps (ops : List regOp) (s : MyselfState)
    (hs : registryClean s) : registryClean (applyRegOps s ops) := by
  induction ops generalizing s with
  | nil => exact hs
  | cons op t ih => exact ih _ (registryClean_applyRegOp s op hs)

/-! ## Claim theorems -/

/-- C1: for every non-negative integer bit-flag value `v`, decoding `v`
(as `permissionsSet` does per entry) yields exactly the capabilities
whose bit is set under create=0x01, read=0x02, update=0x04, delete=0x08;
no key is ever mapped to `false`; and in particular 0x05 decodes to
{create, update}, 0 to {}, and 0x0F to all four. -/
theorem C1_rights_decode (v : Nat) :
    (∀ s : rightOption, capGet (decodeRights v) s =
        (if v.testBit (rightBitIndex s) then some true else none))
    ∧ (∀ s : rightOption, capGet (decodeRights v) s ≠ some false)
    ∧ decodeRights 0x05 = { create := some true, update := some true }
    ∧ decodeRights 0 = {}
    ∧ decodeRights 0x0F =
        { create := some true, read := some true,
          update := some true, delete := some true } := by
  refine ⟨decodeRights_testBit v, ?_, by decide, by decide, by decide⟩
  intro s
  rw [decodeRights_testBit]
  cases v.testBit (rightBitIndex s) <;> simp

/-- C2: the claim fails on the code — subscribing to a permission name
with no entity id initializes a list in `_rightsAllSubscriptions` but
pushes onto `_rightsSubscriptions[name]`, which does not exist, so the
call throws a `TypeError` instead of registering the callback and
invoking it once: at the failing input (fresh state, name `"docs"`, no
id) the call errors, no observer list in `_rightsSubscriptions` is
created, the callback is never invoked, and only the stray
`_rightsAllSubscriptions` entry is left behind.  The other two scopes
(no name at all, and name plus id) do behave as the claim states. -/
theorem C2_name_only_subscribe_throws :
    (permissionsSubscribe initialState 7 (some "docs") none).2 = Except.error ()
    ∧ (permissionsSubscribe initialState 7 (some "docs") none).1.rightsSubscriptions = []
    ∧ (permissionsSubscribe initialState 7 (some "docs") none).1.rightsAllSubscriptions
        = [("docs", [])]
    ∧ (permissionsSubscribe initialState 7 (some "docs") none).1.permissionsSubscriptions = []
    ∧ (permissionsSubscribe initialState 7 none none).2
        = Except.ok ([(7, notifyValue.perms [])], notifyValue.perms [])
    ∧ (permissionsSubscribe initialState 7 (some "docs") (some "e1")).2
        = Except.ok ([(7, notifyValue.rights {})], notifyValue.rights {})
    ∧ (permissionsSubscribe initialState 7 (some "docs") (some "e1")).1.rightsSubscriptions
        = [("docs:e1", [7])] :=
  ⟨rfl, rfl, rfl, rfl, rfl, rfl, rfl⟩

/-- C3: the claim fails on the code — subscribing with
(name, id = RIGHTS_ALL_ID) registers under the key
`name ++ ":" ++ RIGHTS_ALL_ID`, while subscribing with the name alone
does not register under that key (it throws after touching only
`_rightsAllSubscriptions`), so the two forms do not share a key or a
notification stream; only the unsubscribe side collapses the name-only
form onto the sentinel key, removing what the sentinel subscribe added. -/
theorem C3_sentinel_key_divergence :
    ((permissionsSubscribe initialState 7 (some "docs") (some RIGHTS_ALL_ID)).1.rightsSubscriptions
        = [("docs:" ++ RIGHTS_ALL_ID, [7])])
    ∧ (permissionsSubscribe initialState 7 (some "docs") none).2 = Except.error ()
    ∧ (permissionsSubscribe initialState 7 (some "docs") none).1.rightsSubscriptions = []
    ∧ ((permissionsUnsubscribe
          (permissionsSubscribe initialState 7 (some "docs") (some RIGHTS_ALL_ID)).1
          7 (some "docs") none).2 = true)
    ∧ ((permissionsUnsubscribe
          (permissionsSubscribe initialState 7 (some "docs") (some RIGHTS_ALL_ID)).1
          7 (some "docs") none).1.rightsSubscriptions = []) :=
  ⟨rfl, rfl, rfl, rfl, rfl⟩

/-- C6: when the external sign-out resolves `true`, `signout` clears the
session token, replaces the user with absent, empties the permission
map, notifies every user observer with absent, every all-permissions
observer with the empty map and every scoped observer with an empty
capability set, and resolves with the raw boolean; a rejection
propagates unchanged with no state change and no notification. -/
theorem C6_signout (st : MyselfState) (e : responseErrorStruct) :
    (signout st (Except.ok true)).1.session = none
    ∧ (signout st (Except.ok true)).1.user = none
    ∧ (signout st (Except.ok true)).1.permissions = []
    ∧ (signout st (Except.ok true)).2.2 = outcome.resolved true
    ∧ (signout st (Except.ok true)).2.1 =
        st.userSubscriptions.map (fun f => (f, notifyValue.user none))
        ++ st.permissionsSubscriptions.map (fun f => (f, notifyValue.perms []))
        ++ st.rightsSubscriptions.flatMap
             (fun kv => kv.2.map (fun f => (f, notifyValue.rights {})))
    ∧ signout st (Except.error e) = (st, [], outcome.rejected e) := by
  refine ⟨rfl, rfl, rfl, rfl, ?_, rfl⟩
  simp [signout, set, permissionsSet, decodeMap, scopedLookup, List.append_assoc]

/-- C7: a rejection of the fetch inside `update` without a `handle`
function is re-raised unchanged to the caller with no state mutation
and no notification; a rejection carrying a `handle` function is
consumed — the handle is invoked with the error's code and message and
the rejection is not re-raised (the promise never rejects). -/
theorem C7_update_transport_error (st : MyselfState) (code h : Nat) (msg : String) :
    update st (Except.error { code := code, msg := msg, handle := none })
      = (st, [], outcome.rejected { code := code, msg := msg, handle := none }, none)
    ∧ update st (Except.error { code := code, msg := msg, handle := some h })
      = (st, [], outcome.pending, some (h, code, msg)) :=
  ⟨rfl, rfl⟩

/-- C8: `onNoSession` with a non-function argument throws synchronously
and leaves the state (stores and registered callback) untouched; with a
function argument it replaces the registered callback, and after two
registrations a session-invalidated event invokes only the most recent
one. -/
theorem C8_onNoSession (st : MyselfState) (tag : String) (f g : Nat) :
    onNoSession st (jsArg.nonFunc tag) = (st, true)
    ∧ onNoSession st (jsArg.func f) = ({ st with noSession := some f }, false)
    ∧ (noSessionEvent
         (onNoSession (onNoSession st (jsArg.func f)).1 (jsArg.func g)).1).2.2
        = some g :=
  ⟨rfl, rfl, rfl⟩

/-- C10: if the external user fetch resolves with a falsy value,
`update` neither resolves nor rejects and mutates nothing; the same
holds for `signin` with credentials when the external sign-in resolves
with a falsy value (regardless of how the inner fetch would settle). -/
theorem C10_falsy_never_settles (st : MyselfState) (creds : signinCreds)
    (fetchRes : Except responseErrorStruct (Option jsUser)) :
    update st (Except.ok none) = (st, [], outcome.pending, none)
    ∧ signin st (Sum.inr creds) (Except.ok none) fetchRes
        = (st, [], outcome.pending) :=
  ⟨rfl, rfl⟩

/-- C4 counterexample: the claim fails when a registered scope's entity
id contains the `:` separator.  Subscribing to scope
`("docs", "a:b")` registers key `"docs:a:b"`; setting the raw map
`{docs: {"a:b": 3}}` stores create+read for that scope in the new map,
yet the registered observer is notified with the empty capability set,
because the key is split at the first `:` and looked up as
`("docs", "a")`. -/
theorem C4_counterexample :
    ((permissionsSet (permissionsSubscribe initialState 7 (some "docs") (some "a:b")).1
        [("docs", [("a:b", 3)])]).1.permissions
      = [("docs", [("a:b", { create := some true, read := some true })])])
    ∧ ((permissionsSet (permissionsSubscribe initialState 7 (some "docs") (some "a:b")).1
        [("docs", [("a:b", 3)])]).2
      = [(7, notifyValue.rights {})]) :=
  ⟨rfl, rfl⟩

/-- C4 (amended): for every raw permission map, `permissionsSet` decodes
it into a fresh map discarding the previous one entirely, notifies every
all-permissions observer with a full snapshot of the new map, and
notifies every observer under every currently registered scope key with
that scope's value recomputed from the new map (an empty capability set
when the scope is absent from the new map, not an error) — provided the
scope's permission name and entity id contain no `:` separator, so that
the stored key splits back into the subscribed pair; keys whose name or
id contains `:` are mis-split and may be notified with a different
scope's value. -/
theorem C4_replaceAll (st : MyselfState) (list : rawPerms) (n i : String)
    (l : List Nat) (f : Nat)
    (hn : ':' ∉ n.toList) (hi : ':' ∉ i.toList)
    (hmem : (n ++ ":" ++ i, l) ∈ st.rightsSubscriptions) (hf : f ∈ l) :
    (permissionsSet st list).1.permissions = decodeMap list
    ∧ (∀ g ∈ st.permissionsSubscriptions,
        (g, notifyValue.perms (decodeMap list)) ∈ (permissionsSet st list).2)
    ∧ (f, notifyValue.rights
          ((((decodeMap list).lookup n).bind (fun er => er.lookup i)).getD {}))
        ∈ (permissionsSet st list).2 := by
  refine ⟨rfl, ?_, ?_⟩
  · intro g hg
    apply List.mem_append_left
    exact List.mem_map_of_mem _ hg
  · apply List.mem_append_right
    rw [← scopedLookup_concat (decodeMap list) n i hn hi]
    exact List.mem_flatMap.mpr ⟨(n ++ ":" ++ i, l), hmem, List.mem_map_of_mem _ hf⟩

/-- Witness for C4 (amended): the hypotheses are satisfiable and the
conclusion holds at a concrete state and raw map. -/
theorem C4_replaceAll_witness :
    ((':' ∉ "docs".toList) ∧ (':' ∉ "e1".toList)
      ∧ ("docs" ++ ":" ++ "e1", [9]) ∈ exSt.rightsSubscriptions ∧ 9 ∈ [9])
    ∧ ((permissionsSet exSt exRaw).1.permissions = decodeMap exRaw
        ∧ (∀ g ∈ exSt.permissionsSubscriptions,
            (g, notifyValue.perms (decodeMap exRaw)) ∈ (permissionsSet exSt exRaw).2)
        ∧ (9, notifyValue.rights
              ((((decodeMap exRaw).lookup "docs").bind (fun er => er.lookup "e1")).getD {}))
            ∈ (permissionsSet exSt exRaw).2) :=
  ⟨⟨by decide, by decide, by decide, by decide⟩,
   C4_replaceAll exSt exRaw "docs" "e1" [9] 9
     (by decide) (by decide) (by decide) (by decide)⟩

/-- C5: for a callback subscribed exactly once (user store, and scoped
under key `name:id`), the matching unsubscribe returns `true` then
`false`; after the successful unsubscribe the callback receives no
notification from a subsequent store replacement (`set` or
`permissionsSet`); removal is by identity and removes only the first
matching occurrence; and a callback subscribed twice — to the user
store or twice under the same scope key — requires two unsubscribes
(both returning `true`) and until then receives two notifications per
change (two from `set`, two from `permissionsSet`; one after the first
unsubscribe). -/
theorem C5_unsubscribe_exactly_once (st stTwice stScoped2 : MyselfState) (cb : Nat)
    (n i : String) (l l2 : List Nat) (raw : rawPerms) (u : Option jsUser)
    (h1 : st.userSubscriptions.count cb = 1)
    (h2 : st.rightsSubscriptions.lookup (n ++ ":" ++ i) = some l)
    (h3 : l.count cb = 1)
    (h4 : cb ∉ st.permissionsSubscriptions)
    (h5 : ∀ kv ∈ st.rightsSubscriptions, kv.1 ≠ n ++ ":" ++ i → cb ∉ kv.2)
    (h6 : (st.rightsSubscriptions.map Prod.fst).Nodup)
    (h7 : stTwice.userSubscriptions.count cb = 2)
    (h8 : stScoped2.rightsSubscriptions.lookup (n ++ ":" ++ i) = some l2)
    (h9 : l2.count cb = 2)
    (h10 : cb ∉ stScoped2.permissionsSubscriptions)
    (h11 : ∀ kv ∈ stScoped2.rightsSubscriptions, kv.1 ≠ n ++ ":" ++ i → cb ∉ kv.2)
    (h12 : (stScoped2.rightsSubscriptions.map Prod.fst).Nodup) :
    ((unsubscribe st cb).2 = true)
    ∧ ((unsubscribe (unsubscribe st cb).1 cb).2 = false)
    ∧ (List.countP (fun p => p.1 == cb) (set (unsubscribe st cb).1 u).2 = 0)
    ∧ ((permissionsUnsubscribe st cb (some n) (some i)).2 = true)
    ∧ ((permissionsUnsubscribe (permissionsUnsubscribe st cb (some n) (some i)).1
          cb (some n) (some i)).2 = false)
    ∧ (List.countP (fun p => p.1 == cb)
         (permissionsSet (permissionsUnsubscribe st cb (some n) (some i)).1 raw).2 = 0)
    ∧ (∀ l1 l2 : List Nat, cb ∉ l1 →
         removeFirstOcc (l1 ++ cb :: l2) cb = (l1 ++ l2, true))
    ∧ ((unsubscribe stTwice cb).2 = true)
    ∧ ((unsubscribe stTwice cb).1.userSubscriptions.count cb = 1)
    ∧ (List.countP (fun p => p.1 == cb) (set stTwice u).2 = 2)
    ∧ ((unsubscribe (unsubscribe stTwice cb).1 cb).2 = true)
    ∧ (List.countP (fun p => p.1 == cb) (permissionsSet stScoped2 raw).2 = 2)
    ∧ ((permissionsUnsubscribe stScoped2 cb (some n) (some i)).2 = true)
    ∧ ((permissionsUnsubscribe stScoped2 cb (some n) (some i)).1.rightsSubscriptions.lookup
          (n ++ ":" ++ i) = some (removeFirstOcc l2 cb).1)
    ∧ ((removeFirstOcc l2 cb).1.count cb = 1)
    ∧ (List.countP (fun p => p.1 == cb)
         (permissionsSet (permissionsUnsubscribe stScoped2 cb (some n) (some i)).1 raw).2 = 1)
    ∧ ((permissionsUnsubscribe (permissionsUnsubscribe stScoped2 cb (some n) (some i)).1
          cb (some n) (some i)).2 = true) := by
  have memOfCount : ∀ (ll : List Nat), ll.count cb ≠ 0 → cb ∈ ll := by
    intro ll hc
    by_contra hnm
    exact hc (List.count_eq_zero.mpr hnm)
  have hmUser : cb ∈ st.userSubscriptions :=
    memOfCount _ (by rw [h1]; exact one_ne_zero)
  have specUser := removeFirstOcc_mem_spec st.userSubscriptions cb hmUser
  have hcnt0 : (removeFirstOcc st.userSubscriptions cb).1.count cb = 0 := by
    rw [specUser.2, h1]
  have hnm0 : cb ∉ (removeFirstOcc st.userSubscriptions cb).1 :=
    List.count_eq_zero.mp hcnt0
  have hmScoped : cb ∈ l := memOfCount l (by rw [h3]; exact one_ne_zero)
  have specS := removeFirstOcc_mem_spec l cb hmScoped
  have hcntS : (removeFirstOcc l cb).1.count cb = 0 := by
    rw [specS.2, h3]
  have hnmS : cb ∉ (removeFirstOcc l cb).1 := List.count_eq_zero.mp hcntS
  have unsubEq : permissionsUnsubscribe st cb (some n) (some i)
      = (if (removeFirstOcc l cb).1.isEmpty then
           ({ st with rightsSubscriptions :=
                objDelete st.rightsSubscriptions (n ++ ":" ++ i) }, true)
         else
           ({ st with rightsSubscriptions := objModify st.rightsSubscriptions (n ++ ":" ++ i) (fun _ => (removeFirstOcc l cb).1) }, true)) := by
    simp only [permissionsUnsubscribe, Option.getD_some, h2]
    rw [if_pos specS.1]
  have hfree : ∀ kv ∈ (permissionsUnsubscribe st cb (some n) (some i)).1.rightsSubscriptions,
      cb ∉ kv.2 := by
    intro kv hkv
    rw [unsubEq] at hkv
    by_cases he : (removeFirstOcc l cb).1.isEmpty
    · rw [if_pos he] at hkv
      have hkv' : kv ∈ objDelete st.rightsSubscriptions (n ++ ":" ++ i) := hkv
      by_cases hk : kv.1 = n ++ ":" ++ i
      · exfalso
        have h' : (kv.1, kv.2) ∈ objDelete st.rightsSubscriptions (n ++ ":" ++ i) := by
          rw [Prod.mk.eta]
          exact hkv'
        rw [hk] at h'
        exact objDelete_no_key st.rightsSubscriptions _ h6 kv.2 h'
      · exact h5 kv (objDelete_subset _ _ kv hkv') hk
    · rw [if_neg he] at hkv
      rcases objModify_mem_nodup st.rightsSubscriptions (n ++ ":" ++ i)
          (fun _ => (removeFirstOcc l cb).1) h6 kv hkv with ⟨hm2, hne⟩ | ⟨v, hv1, hv2⟩
      · exact h5 kv hm2 hne
      · rw [hv2]
        exact hnmS
  have hPS : (permissionsUnsubscribe st cb (some n) (some i)).1.permissionsSubscriptions
      = st.permissionsSubscriptions := by
    rw [unsubEq]
    by_cases he : (removeFirstOcc l cb).1.isEmpty
    · rw [if_pos he]
    · rw [if_neg he]
  have hmT : cb ∈ stTwice.userSubscriptions :=
    memOfCount _ (by rw [h7]; norm_num)
  have specT := removeFirstOcc_mem_spec stTwice.userSubscriptions cb hmT
  have hcT : (removeFirstOcc stTwice.userSubscriptions cb).1.count cb = 1 := by
    rw [specT.2, h7]
  have hmT2 : cb ∈ (removeFirstOcc stTwice.userSubscriptions cb).1 :=
    memOfCount _ (by rw [hcT]; exact one_ne_zero)
  have hmS2 : cb ∈ l2 := memOfCount l2 (by rw [h9]; norm_num)
  have specS2 := removeFirstOcc_mem_spec l2 cb hmS2
  have hcnt1S2 : (removeFirstOcc l2 cb).1.count cb = 1 := by
    rw [specS2.2, h9]
  have hmR1 : cb ∈ (removeFirstOcc l2 cb).1 :=
    memOfCount _ (by rw [hcnt1S2]; exact one_ne_zero)
  have hneE : (removeFirstOcc l2 cb).1.isEmpty = false := by
    cases hE : (removeFirstOcc l2 cb).1 with
    | nil => rw [hE] at hmR1; cases hmR1
    | cons a b => rfl
  have unsubEq2 : permissionsUnsubscribe stScoped2 cb (some n) (some i)
      = ({ stScoped2 with rightsSubscriptions := objModify stScoped2.rightsSubscriptions (n ++ ":" ++ i) (fun _ => (removeFirstOcc l2 cb).1) }, true) := by
    simp only [permissionsUnsubscribe, Option.getD_some, h8]
    rw [if_pos specS2.1, if_neg (by rw [hneE]; simp)]
  refine ⟨specUser.1, ?_, ?_, ?_, ?_, ?_,
    fun l1 l2 => removeFirstOcc_append_cons l1 l2 cb, specT.1, hcT, ?_, ?_,
    ?_, ?_, ?_, hcnt1S2, ?_, ?_⟩
  · show (removeFirstOcc (removeFirstOcc st.userSubscriptions cb).1 cb).2 = false
    rw [removeFirstOcc_of_not_mem _ cb hnm0]
  · exact (countP_fst_map _ cb (fun _ => notifyValue.user u)).trans hcnt0
  · rw [unsubEq]
    by_cases he : (removeFirstOcc l cb).1.isEmpty
    · rw [if_pos he]
    · rw [if_neg he]
  · rw [unsubEq]
    by_cases he : (removeFirstOcc l cb).1.isEmpty
    · rw [if_pos he]
      show (permissionsUnsubscribe
          { st with rightsSubscriptions :=
              objDelete st.rightsSubscriptions (n ++ ":" ++ i) }
          cb (some n) (some i)).2 = false
      simp only [permissionsUnsubscribe, Option.getD_some]
      rw [lookup_objDelete_self st.rightsSubscriptions (n ++ ":" ++ i) h6]
    · rw [if_neg he]
      show (permissionsUnsubscribe
          { st with rightsSubscriptions := objModify st.rightsSubscriptions (n ++ ":" ++ i) (fun _ => (removeFirstOcc l cb).1) }
          cb (some n) (some i)).2 = false
      simp only [permissionsUnsubscribe, Option.getD_some]
      rw [lookup_objModify_self st.rightsSubscriptions (n ++ ":" ++ i) _ l h2]
      dsimp only
      rw [removeFirstOcc_of_not_mem _ cb hnmS]
      rfl
  · show List.countP (fun p => p.1 == cb)
        (((permissionsUnsubscribe st cb (some n) (some i)).1.permissionsSubscriptions.map
            (fun f => (f, notifyValue.perms (decodeMap raw))))
          ++ ((permissionsUnsubscribe st cb (some n) (some i)).1.rightsSubscriptions.flatMap
            (fun kv => kv.2.map
              (fun f => (f, notifyValue.rights (scopedLookup (decodeMap raw) kv.1)))))) = 0
    rw [List.countP_append]
    have e1 : List.countP (fun p => p.1 == cb)
        ((permissionsUnsubscribe st cb (some n) (some i)).1.permissionsSubscriptions.map
          (fun f => (f, notifyValue.perms (decodeMap raw)))) = 0 :=
      (countP_fst_map _ cb (fun _ => notifyValue.perms (decodeMap raw))).trans
        (by rw [hPS]; exact List.count_eq_zero.mpr h4)
    have e2 : List.countP (fun p => p.1 == cb)
        ((permissionsUnsubscribe st cb (some n) (some i)).1.rightsSubscriptions.flatMap
          (fun kv => kv.2.map
            (fun f => (f, notifyValue.rights (scopedLookup (decodeMap raw) kv.1))))) = 0 :=
      countP_flatMap_zero _ cb
        (fun kv _ => notifyValue.rights (scopedLookup (decodeMap raw) kv.1)) hfree
    rw [e1, e2]
  · exact (countP_fst_map _ cb (fun _ => notifyValue.user u)).trans h7
  · exact (removeFirstOcc_mem_spec _ cb hmT2).1
  · show List.countP (fun p => p.1 == cb)
        ((stScoped2.permissionsSubscriptions.map
            (fun f => (f, notifyValue.perms (decodeMap raw))))
          ++ (stScoped2.rightsSubscriptions.flatMap
            (fun kv => kv.2.map
              (fun f => (f, notifyValue.rights (scopedLookup (decodeMap raw) kv.1)))))) = 2
    rw [List.countP_append]
    have e1 : List.countP (fun p => p.1 == cb)
        (stScoped2.permissionsSubscriptions.map
          (fun f => (f, notifyValue.perms (decodeMap raw)))) = 0 :=
      (countP_fst_map _ cb (fun _ => notifyValue.perms (decodeMap raw))).trans
        (List.count_eq_zero.mpr h10)
    have e2 := countP_flatMap_count stScoped2.rightsSubscriptions cb (n ++ ":" ++ i)
      (fun kv _ => notifyValue.rights (scopedLookup (decodeMap raw) kv.1)) l2 h8 h12 h11
    rw [e1, e2, h9]
  · rw [unsubEq2]
  · rw [unsubEq2]
    show (objModify stScoped2.rightsSubscriptions (n ++ ":" ++ i)
        (fun _ => (removeFirstOcc l2 cb).1)).lookup (n ++ ":" ++ i)
        = some (removeFirstOcc l2 cb).1
    exact lookup_objModify_self _ _ _ l2 h8
  · rw [unsubEq2]
    show List.countP (fun p => p.1 == cb)
        ((stScoped2.permissionsSubscriptions.map
            (fun f => (f, notifyValue.perms (decodeMap raw))))
          ++ ((objModify stScoped2.rightsSubscriptions (n ++ ":" ++ i)
                (fun _ => (removeFirstOcc l2 cb).1)).flatMap
            (fun kv => kv.2.map
              (fun f => (f, notifyValue.rights (scopedLookup (decodeMap raw) kv.1)))))) = 1
    rw [List.countP_append]
    have hnd2 : ((objModify stScoped2.rightsSubscriptions (n ++ ":" ++ i)
        (fun _ => (removeFirstOcc l2 cb).1)).map Prod.fst).Nodup := by
      rw [objModify_map_fst]
      exact h12
    have hothers2 : ∀ kv ∈ objModify stScoped2.rightsSubscriptions (n ++ ":" ++ i)
        (fun _ => (removeFirstOcc l2 cb).1), kv.1 ≠ n ++ ":" ++ i → cb ∉ kv.2 := by
      intro kv hkv hk
      rcases objModify_mem_nodup _ _ _ h12 kv hkv with ⟨hm2, _⟩ | ⟨v, _, hv2⟩
      · exact h11 kv hm2 hk
      · exfalso
        rw [hv2] at hk
        exact hk rfl
    have e1 : List.countP (fun p => p.1 == cb)
        (stScoped2.permissionsSubscriptions.map
          (fun f => (f, notifyValue.perms (decodeMap raw)))) = 0 :=
      (countP_fst_map _ cb (fun _ => notifyValue.perms (decodeMap raw))).trans
        (List.count_eq_zero.mpr h10)
    have e2 := countP_flatMap_count _ cb (n ++ ":" ++ i)
      (fun kv _ => notifyValue.rights (scopedLookup (decodeMap raw) kv.1))
      (removeFirstOcc l2 cb).1 (lookup_objModify_self _ _ _ l2 h8) hnd2 hothers2
    rw [e1, e2, hcnt1S2]
  · rw [unsubEq2]
    show (permissionsUnsubscribe
        { stScoped2 with rightsSubscriptions := objModify stScoped2.rightsSubscriptions (n ++ ":" ++ i) (fun _ => (removeFirstOcc l2 cb).1) }
        cb (some n) (some i)).2 = true
    simp only [permissionsUnsubscribe, Option.getD_some]
    rw [lookup_objModify_self stScoped2.rightsSubscriptions (n ++ ":" ++ i) _ l2 h8]
    dsimp only
    rw [if_pos (removeFirstOcc_mem_spec _ cb hmR1).1]
    by_cases hE2 : (removeFirstOcc (removeFirstOcc l2 cb).1 cb).1.isEmpty
    · rw [if_pos hE2]
    · rw [if_neg hE2]

/-- Witness for C5: the hypotheses are satisfiable and the conclusion
holds at a concrete pair of states and callback. -/
theorem C5_unsubscribe_exactly_once_witness :
    (exSt.userSubscriptions.count 9 = 1
      ∧ exSt.rightsSubscriptions.lookup ("docs" ++ ":" ++ "e1") = some [9]
      ∧ List.count 9 [9] = 1
      ∧ 9 ∉ exSt.permissionsSubscriptions
      ∧ (∀ kv ∈ exSt.rightsSubscriptions, kv.1 ≠ "docs" ++ ":" ++ "e1" → 9 ∉ kv.2)
      ∧ (exSt.rightsSubscriptions.map Prod.fst).Nodup
      ∧ exSt2.userSubscriptions.count 9 = 2
      ∧ exSt3.rightsSubscriptions.lookup ("docs" ++ ":" ++ "e1") = some [9, 9]
      ∧ List.count 9 [9, 9] = 2
      ∧ 9 ∉ exSt3.permissionsSubscriptions
      ∧ (∀ kv ∈ exSt3.rightsSubscriptions, kv.1 ≠ "docs" ++ ":" ++ "e1" → 9 ∉ kv.2)
      ∧ (exSt3.rightsSubscriptions.map Prod.fst).Nodup)
    ∧ (((unsubscribe exSt 9).2 = true)
      ∧ ((unsubscribe (unsubscribe exSt 9).1 9).2 = false)
      ∧ (List.countP (fun p => p.1 == 9) (set (unsubscribe exSt 9).1 none).2 = 0)
      ∧ ((permissionsUnsubscribe exSt 9 (some "docs") (some "e1")).2 = true)
      ∧ ((permissionsUnsubscribe
            (permissionsUnsubscribe exSt 9 (some "docs") (some "e1")).1
            9 (some "docs") (some "e1")).2 = false)
      ∧ (List.countP (fun p => p.1 == 9)
           (permissionsSet
             (permissionsUnsubscribe exSt 9 (some "docs") (some "e1")).1 exRaw).2 = 0)
      ∧ (∀ l1 l2 : List Nat, 9 ∉ l1 →
           removeFirstOcc (l1 ++ 9 :: l2) 9 = (l1 ++ l2, true))
      ∧ ((unsubscribe exSt2 9).2 = true)
      ∧ ((unsubscribe exSt2 9).1.userSubscriptions.count 9 = 1)
      ∧ (List.countP (fun p => p.1 == 9) (set exSt2 none).2 = 2)
      ∧ ((unsubscribe (unsubscribe exSt2 9).1 9).2 = true)
      ∧ (List.countP (fun p => p.1 == 9) (permissionsSet exSt3 exRaw).2 = 2)
      ∧ ((permissionsUnsubscribe exSt3 9 (some "docs") (some "e1")).2 = true)
      ∧ ((permissionsUnsubscribe exSt3 9 (some "docs") (some "e1")).1.rightsSubscriptions.lookup
            ("docs" ++ ":" ++ "e1") = some (removeFirstOcc [9, 9] 9).1)
      ∧ ((removeFirstOcc [9, 9] 9).1.count 9 = 1)
      ∧ (List.countP (fun p => p.1 == 9)
           (permissionsSet
             (permissionsUnsubscribe exSt3 9 (some "docs") (some "e1")).1 exRaw).2 = 1)
      ∧ ((permissionsUnsubscribe
            (permissionsUnsubscribe exSt3 9 (some "docs") (some "e1")).1
            9 (some "docs") (some "e1")).2 = true)) :=
  ⟨⟨by decide, by decide, by decide, by decide, by decide, by decide, by decide,
    by decide, by decide, by decide, by decide, by decide⟩,
   C5_unsubscribe_exactly_once exSt exSt2 exSt3 9 "docs" "e1" [9] [9, 9] exRaw none
     (by decide) (by decide) (by decide) (by decide) (by decide) (by decide)
     (by decide) (by decide) (by decide) (by decide) (by decide) (by decide)⟩

/-- C9: after any sequence of subscribe/unsubscribe operations from the
initial state, no key of the scoped registry maps to an empty observer
list; when the last observer under a key unsubscribes the key is
deleted from the registry, and a subsequent subscribe under the same
key starts a fresh singleton list rather than rejoining a stale one. -/
theorem C9_registry_cleanup (ops : List regOp) (st : MyselfState) (cb cb2 : Nat)
    (n i : String)
    (h2 : st.rightsSubscriptions.lookup (n ++ ":" ++ i) = some [cb])
    (h6 : (st.rightsSubscriptions.map Prod.fst).Nodup) :
    registryClean (applyRegOps initialState ops)
    ∧ ((permissionsUnsubscribe st cb (some n) (some i)).1.rightsSubscriptions.lookup
         (n ++ ":" ++ i) = none)
    ∧ ((permissionsSubscribe (permissionsUnsubscribe st cb (some n) (some i)).1
          cb2 (some n) (some i)).1.rightsSubscriptions.lookup (n ++ ":" ++ i)
        = some [cb2]) := by
  have hInit : registryClean initialState := by
    intro kv hkv
    cases hkv
  have hro : removeFirstOcc [cb] cb = ([], true) := by
    simp [removeFirstOcc]
  have unsubEq : permissionsUnsubscribe st cb (some n) (some i)
      = ({ st with rightsSubscriptions := objDelete st.rightsSubscriptions (n ++ ":" ++ i) }, true) := by
    simp only [permissionsUnsubscribe, Option.getD_some, h2]
    rw [hro]
    rfl
  have hdel : (objDelete st.rightsSubscriptions (n ++ ":" ++ i)).lookup (n ++ ":" ++ i)
      = none := lookup_objDelete_self _ _ h6
  refine ⟨registryClean_applyRegOps ops initialState hInit, ?_, ?_⟩
  · rw [unsubEq]
    exact hdel
  · rw [unsubEq]
    simp only [permissionsSubscribe]
    rw [if_neg (by rw [hdel]; simp)]
    show (objModify (objDelete st.rightsSubscriptions (n ++ ":" ++ i) ++ [(n ++ ":" ++ i, [])])
        (n ++ ":" ++ i) (· ++ [cb2])).lookup (n ++ ":" ++ i) = some [cb2]
    rw [objModify_append_fresh _ _ _ _ hdel,
      lookup_append_of_none _ _ _ hdel]
    show ((n ++ ":" ++ i, ([] : List Nat) ++ [cb2]) :: []).lookup (n ++ ":" ++ i)
        = some [cb2]
    rw [lookup_cons_key_self]
    rfl

/-- Witness for C9: the hypotheses are satisfiable and the conclusion
holds at a concrete state and operation sequence. -/
theorem C9_registry_cleanup_witness :
    (exSt.rightsSubscriptions.lookup ("docs" ++ ":" ++ "e1") = some [9]
      ∧ (exSt.rightsSubscriptions.map Prod.fst).Nodup)
    ∧ (registryClean (applyRegOps initialState
          [regOp.sub 9 (some "docs") (some "e1"),
           regOp.unsub 9 (some "docs") (some "e1")])
      ∧ ((permissionsUnsubscribe exSt 9 (some "docs") (some "e1")).1.rightsSubscriptions.lookup
           ("docs" ++ ":" ++ "e1") = none)
      ∧ ((permissionsSubscribe
            (permissionsUnsubscribe exSt 9 (some "docs") (some "e1")).1
            11 (some "docs") (some "e1")).1.rightsSubscriptions.lookup
           ("docs" ++ ":" ++ "e1") = some [11])) :=
  ⟨⟨by decide, by decide⟩,
   C9_registry_cleanup
     [regOp.sub 9 (some "docs") (some "e1"),
      regOp.unsub 9 (some "docs") (some "e1")]
     exSt 9 11 "docs" "e1" (by decide) (by decide)⟩

end BrainReact
